import Mathlib

/-!
Verification development for the mammoscan-AI Go backend.

The embedding below is a shallow model of the two pieces of domain logic in
the repository:

* the threshold decision step of `Predict` in
  `backend/internal/handlers/handlers.go` (lines 60-92): the handler reads
  `prediction[0]` from the score slice returned by the inference engine,
  casts it to `float64`, compares it with the constant threshold `0.110593`
  using strict `>`, and builds a `PredictionResponse`;

* the preprocessing pipeline `PreprocessImage` in
  `backend/internal/preprocess/image.go`: decode, resize to 224x224
  (delegated to external libraries, modelled as parameters), and the
  pixel-conversion loop that writes `float32(r >> 8)`, `float32(g >> 8)`,
  `float32(b >> 8)` at flat index `(y*width+x)*3 + c` into a buffer of
  length `1*height*width*3`.

Go floating-point values are modelled exactly: a `float32`/`float64` is
either a finite value, carried as the exact rational it denotes, or one of
NaN, +Inf, -Inf.  The decision step performs no rounding arithmetic (only
an exact widening cast and one IEEE comparison), and the conversion loop
only converts integers at most 255 to `float32` (exact), so the rational
carrier loses nothing.  Go slice indexing out of range is a runtime panic;
it is modelled by an explicit `panics` outcome / `none` result.
-/

namespace MammoScan

/-- Exact model of a Go floating-point value (`float32` or `float64`):
either a finite value, carried as the exact rational number it denotes,
or one of the IEEE special values NaN, +Inf, -Inf.  The widening cast
`float64(x)` of Go is exact, so one carrier serves both widths. -/
inductive GoFloat where
  | finite (q : ℚ)
  | nan
  | inf
  | neginf
deriving DecidableEq, Repr

/-- IEEE semantics of the Go comparison `x > t` for a finite threshold `t`
(the handler's threshold is the finite constant `0.110593`): any
comparison with NaN is false, `+Inf > t` is true, `-Inf > t` is false,
and on finite values it is the exact order on the denoted rationals. -/
def GoFloat.gtQ : GoFloat → ℚ → Bool
  | .finite q, t => decide (t < q)
  | .nan, _ => false
  | .inf, _ => true
  | .neginf, _ => false

/-- Embedding of `models.PredictionResponse`
(`backend/internal/models/types.go`): the JSON body returned on success. -/
structure PredictionResponse where
  prediction : String
  confidenceScore : GoFloat
  modelName : String
  modelThreshold : ℚ
deriving DecidableEq, Repr

/-- Outcome of the decision step of `Predict`: either a constructed
`PredictionResponse`, or a Go runtime panic (index out of range). -/
inductive DecideOutcome where
  | result (r : PredictionResponse)
  | panics
deriving DecidableEq, Repr

/-- The constant `modelThreshold = 0.110593` of `handlers.go` line 70,
as the exact rational denoted by the decimal literal. -/
def modelThreshold : ℚ := 110593 / 1000000

/-- The constant `ModelName: "baseline_cnn_v2"` of `handlers.go` line 82. -/
def modelNameStr : String := "baseline_cnn_v2"

/-- Embedding of the decision step of `Predict`, `handlers.go` lines 66-86:
`confidenceScore := float64(prediction[0])` followed by the strict
threshold comparison and construction of the response.  Indexing
`prediction[0]` on an empty slice is a Go panic, modelled by `panics`;
there is no emptiness guard in the source.  The threshold and model name
are passed as parameters so that the fixed constants above can be
instantiated. -/
def decideScores : List GoFloat → ℚ → String → DecideOutcome
  | [], _, _ => .panics
  | s :: _, t, n =>
      .result { prediction := if s.gtQ t then "Cancer" else "Non-Cancer"
                confidenceScore := s
                modelName := n
                modelThreshold := t }

/-- C1: for every score vector with a first element and every threshold, the
decision step returns label "Cancer" exactly when the first score, cast
(exactly) to float64 as the confidence, is strictly greater than the
threshold in the IEEE sense, and "Non-Cancer" otherwise; in particular a
confidence exactly equal to the (finite) threshold yields "Non-Cancer". -/
theorem C1_decision_rule (s : GoFloat) (rest : List GoFloat) (t : ℚ) (n : String) :
    ∃ r, decideScores (s :: rest) t n = .result r ∧
      r.confidenceScore = s ∧
      (r.prediction = "Cancer" ↔ s.gtQ t = true) ∧
      (r.prediction = "Non-Cancer" ↔ s.gtQ t = false) ∧
      decideScores (.finite t :: rest) t n =
        .result { prediction := "Non-Cancer", confidenceScore := .finite t,
                  modelName := n, modelThreshold := t } := by
  refine ⟨_, rfl, rfl, ?_, ?_, ?_⟩
  · cases h : s.gtQ t <;> simp [h]
  · cases h : s.gtQ t <;> simp [h]
  · simp [decideScores, GoFloat.gtQ]

/-- Witness for C1 at the concrete vector `[1.0, 0.0]` and the repository's
constants. -/
theorem C1_decision_rule_witness :
    ∃ r, decideScores [GoFloat.finite 1, GoFloat.finite 0] modelThreshold modelNameStr
        = .result r ∧
      r.confidenceScore = GoFloat.finite 1 ∧
      (r.prediction = "Cancer" ↔ GoFloat.gtQ (GoFloat.finite 1) modelThreshold = true) ∧
      (r.prediction = "Non-Cancer" ↔ GoFloat.gtQ (GoFloat.finite 1) modelThreshold = false) ∧
      decideScores [GoFloat.finite modelThreshold, GoFloat.finite 0] modelThreshold modelNameStr
        = .result { prediction := "Non-Cancer", confidenceScore := .finite modelThreshold,
                    modelName := modelNameStr, modelThreshold := modelThreshold } :=
  C1_decision_rule (GoFloat.finite 1) [GoFloat.finite 0] modelThreshold modelNameStr

/-- C3: on the empty score vector the decision step of `Predict` evaluates
`prediction[0]` on an empty Go slice and panics with an index-out-of-range
runtime error; it does not fail with an `EmptyOutputError` (no such error
exists in the code) and does not return any default result. -/
theorem C3_empty_scores_panics :
    decideScores [] modelThreshold modelNameStr = .panics := rfl

/-- C4 counterexample: on the score vector `[NaN]` the decision step does
not fail with any error; it silently returns the classification
"Non-Cancer" (a NaN comparison is false, so the else branch is taken). -/
theorem C4_counterexample :
    decideScores [GoFloat.nan] modelThreshold modelNameStr =
      .result { prediction := "Non-Cancer", confidenceScore := GoFloat.nan,
                modelName := modelNameStr, modelThreshold := modelThreshold } := rfl

/-- C4 amended: a non-finite first score is silently classified, never
surfaced as an error: NaN and -Inf compare not-greater and yield
"Non-Cancer", +Inf compares greater and yields "Cancer". -/
theorem C4_nonfinite_silently_classified (rest : List GoFloat) (t : ℚ) (n : String) :
    decideScores (GoFloat.nan :: rest) t n =
      .result { prediction := "Non-Cancer", confidenceScore := GoFloat.nan,
                modelName := n, modelThreshold := t } ∧
    decideScores (GoFloat.inf :: rest) t n =
      .result { prediction := "Cancer", confidenceScore := GoFloat.inf,
                modelName := n, modelThreshold := t } ∧
    decideScores (GoFloat.neginf :: rest) t n =
      .result { prediction := "Non-Cancer", confidenceScore := GoFloat.neginf,
                modelName := n, modelThreshold := t } := by
  exact ⟨rfl, rfl, rfl⟩

/-- Witness for the amended C4 at the repository's constants. -/
theorem C4_nonfinite_witness :
    decideScores [GoFloat.nan] modelThreshold modelNameStr =
      .result { prediction := "Non-Cancer", confidenceScore := GoFloat.nan,
                modelName := modelNameStr, modelThreshold := modelThreshold } ∧
    decideScores [GoFloat.inf] modelThreshold modelNameStr =
      .result { prediction := "Cancer", confidenceScore := GoFloat.inf,
                modelName := modelNameStr, modelThreshold := modelThreshold } ∧
    decideScores [GoFloat.neginf] modelThreshold modelNameStr =
      .result { prediction := "Non-Cancer", confidenceScore := GoFloat.neginf,
                modelName := modelNameStr, modelThreshold := modelThreshold } :=
  C4_nonfinite_silently_classified [] modelThreshold modelNameStr

/-- C9: on the score vector `[0.989]` with the repository's threshold
`0.110593` and model name, the decision step returns prediction "Cancer",
confidence 0.989 (the first score cast exactly to float64) and
model threshold 0.110593. -/
theorem C9_scenario :
    decideScores [GoFloat.finite (989 / 1000)] modelThreshold modelNameStr =
      .result { prediction := "Cancer", confidenceScore := GoFloat.finite (989 / 1000),
                modelName := "baseline_cnn_v2", modelThreshold := 110593 / 1000000 } := by
  have h : GoFloat.gtQ (GoFloat.finite (989 / 1000)) (110593 / 1000000) = true := by
    simp only [GoFloat.gtQ, decide_eq_true_eq]
    norm_num
  simp [decideScores, modelThreshold, modelNameStr, h]

/-- Model of the Go standard library color value at one pixel, as returned
by `At(x, y).RGBA()` in `image.go` line 65: four components `r`, `g`, `b`,
`a`, each a `uint32` that the library contract keeps in `[0, 65535]`
(16-bit, alpha-premultiplied).  The components are naturals; the 16-bit
bound is a stated hypothesis where a claim needs it. -/
structure GoColor where
  r : ℕ
  g : ℕ
  b : ℕ
  a : ℕ
deriving DecidableEq, Repr

/-- Model of a decoded Go `image.Image` as used by `PreprocessImage`:
its bounds (`width = Bounds().Dx()`, `height = Bounds().Dy()`) and the
pixel accessor, `pixel x y` modelling `At(x, y).RGBA()`. -/
structure GoImage where
  width : ℕ
  height : ℕ
  pixel : ℕ → ℕ → GoColor

/-- The stored value `float32(v >> 8)` of `image.go` lines 72-74: the
16-bit component right-shifted by 8 bits, converted (exactly, since it is
at most 255 for in-contract components, and in any case an integer below
2^24) to `float32`, carried as a rational. -/
def shr8 (v : ℕ) : ℚ := ((v >>> 8 : ℕ) : ℚ)

/-- Go slice element assignment `arr[i] = v`: the updated slice when `i`
is in range, and a runtime panic (modelled as `none`) otherwise. -/
def setChecked (arr : Array ℚ) (i : ℕ) (v : ℚ) : Option (Array ℚ) :=
  if h : i < arr.size then some (arr.set ⟨i, h⟩ v) else none

/-- Loop body of the pixel-conversion loop, `image.go` lines 63-76: read
the pixel at `(x, y)`, compute `baseIndex := (y*width + x) * 3`, and store
the shifted R, G, B components at `baseIndex`, `baseIndex+1`,
`baseIndex+2` (alpha ignored). -/
def writePixel (img : GoImage) (y x : ℕ) (arr : Array ℚ) : Option (Array ℚ) :=
  (setChecked arr ((y * img.width + x) * 3) (shr8 (img.pixel x y).r)).bind fun a1 =>
    (setChecked a1 ((y * img.width + x) * 3 + 1) (shr8 (img.pixel x y).g)).bind fun a2 =>
      setChecked a2 ((y * img.width + x) * 3 + 2) (shr8 (img.pixel x y).b)

/-- Inner loop `for x := 0; x < width; x++` of `image.go` line 64. -/
def convertRow (img : GoImage) (y : ℕ) (arr : Array ℚ) : Option (Array ℚ) :=
  (List.range img.width).foldlM (fun a x => writePixel img y x a) arr

/-- Outer loop `for y := 0; y < height; y++` of `image.go` line 63,
started on the freshly allocated buffer
`make([]float32, 1*height*width*3)` of line 60 (Go zero-initialises). -/
def convertImage (img : GoImage) : Option (Array ℚ) :=
  (List.range img.height).foldlM (fun a y => convertRow img y a)
    (Array.mkArray (1 * img.height * img.width * 3) (0 : ℚ))

/-- Model of the `tensor.New(tensor.WithShape(...), tensor.WithBacking(...))`
value of `image.go` lines 81-84: the declared shape and the flat backing
buffer. -/
structure GoTensor where
  shape : List ℕ
  data : Array ℚ
deriving DecidableEq, Repr

/-- Outcome of `PreprocessImage`: a runtime panic from an out-of-range
slice write, an error return, or a tensor. -/
inductive PreOutcome where
  | panics
  | err (msg : String)
  | ok (t : GoTensor)
deriving DecidableEq, Repr

/-- Embedding of `PreprocessImage` (`image.go` lines 36-87).  The two
external library calls are parameters: `decode` models
`image.Decode` (Go standard library; its error is the wrapped message),
and `resize` models `resize.Resize(224, 224, img, resize.Lanczos3)` from
`github.com/nfnt/resize`.  The repository's own code is the error
wrapping, the bounds reads, the buffer allocation, the conversion loop
and the tensor construction, all embedded directly. -/
def preprocessImage (decode : List ℕ → Except String GoImage)
    (resize : GoImage → GoImage) (bytes : List ℕ) : PreOutcome :=
  match decode bytes with
  | .error e => .err ("failed to decode image: " ++ e)
  | .ok img =>
      let resized := resize img
      match convertImage resized with
      | none => .panics
      | some tensorData =>
          .ok { shape := [1, resized.height, resized.width, 3], data := tensorData }

/-- Bodies of the JSON responses written by the handlers: an
`models.ErrorResponse{Error: msg}` or a `models.PredictionResponse`. -/
inductive Body where
  | errMsg (msg : String)
  | pred (r : PredictionResponse)
deriving DecidableEq, Repr

/-- An HTTP response as issued by `c.JSON(status, body)`. -/
structure HttpResponse where
  status : ℕ
  body : Body
deriving DecidableEq, Repr

/-- Outcome of the `Predict` handler: an HTTP response, or a Go runtime
panic escaping the handler. -/
inductive HandlerOutcome where
  | response (r : HttpResponse)
  | panics
deriving DecidableEq, Repr

/-- Status code of a handler outcome, if it produced a response. -/
def statusOf : HandlerOutcome → Option ℕ
  | .response r => some r.status
  | .panics => none

/-- Embedding of the `Predict` handler (`handlers.go` lines 34-92).
Parameters model the collaborators: `decode`/`resize` as in
`preprocessImage`, and `infer` models `h.InferenceEngine.Predict`
(`onnx.go`), whose error is wrapped as `prediction failed: ...`.  The
form field is `none` when `c.FormFile("image")` fails (status 400,
`"image file is required"`); the rarely failing `fileHeader.Open()` step
(500, `"failed to open uploaded file"`) is not modelled, as no claim
concerns it.  A preprocess error —including a decode failure— is answered
with status 500 (`http.StatusInternalServerError`, line 53), not 400. -/
def predictHandler (decode : List ℕ → Except String GoImage)
    (resize : GoImage → GoImage)
    (infer : GoTensor → Except String (List GoFloat))
    (form : Option (List ℕ)) : HandlerOutcome :=
  match form with
  | none => .response ⟨400, .errMsg "image file is required"⟩
  | some bytes =>
      match preprocessImage decode resize bytes with
      | .panics => .panics
      | .err e => .response ⟨500, .errMsg ("failed to preprocess image: " ++ e)⟩
      | .ok t =>
          match infer t with
          | .error e => .response ⟨500, .errMsg ("prediction failed: " ++ e)⟩
          | .ok scores =>
              match decideScores scores modelThreshold modelNameStr with
              | .panics => .panics
              | .result r => .response ⟨200, .pred r⟩

/-- A decoder that always fails, modelling `image.Decode` on a byte stream
that is not a valid image. -/
def decodeNoneFn : List ℕ → Except String GoImage :=
  fun _ => .error "image: unknown format"

/-- The all-white image of the given dimensions: every pixel has all three
16-bit color components at full intensity 65535 (opaque alpha). -/
def whiteImage (w h : ℕ) : GoImage :=
  { width := w, height := h, pixel := fun _ _ => ⟨65535, 65535, 65535, 65535⟩ }

/-- A decoder that succeeds with the 512x512 all-white image. -/
def decodeWhite512 : List ℕ → Except String GoImage :=
  fun _ => .ok (whiteImage 512 512)

/-- An inference stub that always fails (never reached in the scenarios
that use it). -/
def inferFail : GoTensor → Except String (List GoFloat) :=
  fun _ => .error "model not run"

/-- C5 counterexample: with a decoder that rejects the bytes (a malformed
byte stream), the handler responds with status 500 — not 400 as claimed —
carrying the wrapped decode error in the JSON error body. -/
theorem C5_counterexample :
    statusOf (predictHandler decodeNoneFn (fun img => img) inferFail (some [0]))
        ≠ some 400 ∧
    predictHandler decodeNoneFn (fun img => img) inferFail (some [0]) =
      .response ⟨500,
        .errMsg "failed to preprocess image: failed to decode image: image: unknown format"⟩ := by
  exact ⟨by decide, rfl⟩

/-- C5 amended: for every byte stream on which decoding fails, `normalize`
fails with the wrapped decode error and the HTTP layer responds with
status 500 (`http.StatusInternalServerError`) and the JSON error body;
only a missing "image" form field is answered with 400. -/
theorem C5_decode_failure_maps_to_500 (decode : List ℕ → Except String GoImage)
    (resize : GoImage → GoImage) (infer : GoTensor → Except String (List GoFloat))
    (bytes : List ℕ) (msg : String) (hdec : decode bytes = .error msg) :
    predictHandler decode resize infer (some bytes) =
      .response ⟨500,
        .errMsg ("failed to preprocess image: " ++ ("failed to decode image: " ++ msg))⟩ ∧
    predictHandler decode resize infer none =
      .response ⟨400, .errMsg "image file is required"⟩ := by
  constructor
  · simp [predictHandler, preprocessImage, hdec]
  · rfl

/-- Witness for the amended C5 at the concrete failing decoder. -/
theorem C5_decode_failure_witness :
    predictHandler decodeNoneFn (fun img => img) inferFail (some [0]) =
      .response ⟨500,
        .errMsg ("failed to preprocess image: "
          ++ ("failed to decode image: " ++ "image: unknown format"))⟩ ∧
    predictHandler decodeNoneFn (fun img => img) inferFail none =
      .response ⟨400, .errMsg "image file is required"⟩ :=
  C5_decode_failure_maps_to_500 decodeNoneFn (fun img => img) inferFail [0]
    "image: unknown format" rfl

/-- Reading back the just-written index of a Go slice assignment. -/
lemma get?_set_self (a : Array ℚ) (i : ℕ) (h : i < a.size) (v : ℚ) :
    (a.set ⟨i, h⟩ v)[i]? = some v := by
  simpa using Array.getElem?_set_eq a ⟨i, h⟩ v

/-- Reading any other index of a Go slice assignment. -/
lemma get?_set_other (a : Array ℚ) (i : ℕ) (h : i < a.size) (v : ℚ) (j : ℕ)
    (hij : i ≠ j) : (a.set ⟨i, h⟩ v)[j]? = a[j]? := by
  simpa using Array.getElem?_set_ne a ⟨i, h⟩ v hij

/-- Full characterisation of one iteration of the pixel-conversion loop:
when the three target indices are in range, the iteration succeeds, keeps
the buffer length, stores the three shifted components at
`baseIndex`, `baseIndex+1`, `baseIndex+2`, and leaves every index outside
that window unchanged. -/
lemma writePixel_spec (img : GoImage) (y x : ℕ) (arr : Array ℚ)
    (hb : (y * img.width + x) * 3 + 3 ≤ arr.size) :
    ∃ a', writePixel img y x arr = some a' ∧ a'.size = arr.size ∧
      a'[(y * img.width + x) * 3]? = some (shr8 (img.pixel x y).r) ∧
      a'[(y * img.width + x) * 3 + 1]? = some (shr8 (img.pixel x y).g) ∧
      a'[(y * img.width + x) * 3 + 2]? = some (shr8 (img.pixel x y).b) ∧
      ∀ j, j < (y * img.width + x) * 3 ∨ (y * img.width + x) * 3 + 3 ≤ j →
        a'[j]? = arr[j]? := by
  set base := (y * img.width + x) * 3 with hbase
  have h0 : base < arr.size := by omega
  set a1 := arr.set ⟨base, h0⟩ (shr8 (img.pixel x y).r) with ha1
  have h1 : base + 1 < a1.size := by
    rw [ha1, Array.size_set]; omega
  set a2 := a1.set ⟨base + 1, h1⟩ (shr8 (img.pixel x y).g) with ha2
  have h2 : base + 2 < a2.size := by
    rw [ha2, Array.size_set, ha1, Array.size_set]; omega
  set a3 := a2.set ⟨base + 2, h2⟩ (shr8 (img.pixel x y).b) with ha3
  refine ⟨a3, ?_, ?_, ?_, ?_, ?_, ?_⟩
  · simp only [writePixel, setChecked, ← hbase]
    rw [dif_pos h0, ← ha1]
    simp only [Option.some_bind]
    rw [dif_pos h1, ← ha2]
    simp only [Option.some_bind]
    rw [dif_pos h2, ← ha3]
  · rw [ha3, Array.size_set, ha2, Array.size_set, ha1, Array.size_set]
  · rw [ha3, get?_set_other _ _ _ _ _ (by omega), ha2,
      get?_set_other _ _ _ _ _ (by omega), ha1, get?_set_self]
  · rw [ha3, get?_set_other _ _ _ _ _ (by omega), ha2, get?_set_self]
  · rw [ha3, get?_set_self]
  · intro j hj
    rw [ha3, get?_set_other _ _ _ _ _ (by omega), ha2,
      get?_set_other _ _ _ _ _ (by omega), ha1,
      get?_set_other _ _ _ _ _ (by omega)]

/-- Characterisation of the first `k` iterations of the inner
(per-column) loop on row `y`: they succeed, keep the buffer length, store
the three shifted components of each visited pixel at their flat indices,
and leave every index outside the visited window
`[y*width*3, (y*width+k)*3)` unchanged. -/
lemma convertRow_aux (img : GoImage) (y : ℕ) (k : ℕ) :
    ∀ arr : Array ℚ, (y * img.width + k) * 3 ≤ arr.size →
    ∃ a', (List.range k).foldlM (fun a x => writePixel img y x a) arr = some a' ∧
      a'.size = arr.size ∧
      (∀ x, x < k →
        a'[(y * img.width + x) * 3]? = some (shr8 (img.pixel x y).r) ∧
        a'[(y * img.width + x) * 3 + 1]? = some (shr8 (img.pixel x y).g) ∧
        a'[(y * img.width + x) * 3 + 2]? = some (shr8 (img.pixel x y).b)) ∧
      (∀ j, j < y * img.width * 3 ∨ (y * img.width + k) * 3 ≤ j →
        a'[j]? = arr[j]?) := by
  induction k with
  | zero =>
      intro arr _
      exact ⟨arr, by simp, rfl, fun x hx => absurd hx (Nat.not_lt_zero x),
        fun j _ => rfl⟩
  | succ k ih =>
      intro arr hsz
      obtain ⟨a1, hrun1, hsz1, hvals1, hframe1⟩ := ih arr (by omega)
      obtain ⟨a2, hrun2, hsz2, hr, hg, hb2, hframe2⟩ :=
        writePixel_spec img y k a1 (by omega)
      refine ⟨a2, ?_, by omega, ?_, ?_⟩
      · rw [List.range_succ, List.foldlM_append, hrun1]
        simp [List.foldlM_cons, List.foldlM_nil, hrun2]
      · intro x hx
        rcases Nat.lt_succ_iff_lt_or_eq.mp hx with hxk | hxe
        · obtain ⟨v1, v2, v3⟩ := hvals1 x hxk
          exact ⟨by rw [hframe2 _ (by omega)]; exact v1,
            by rw [hframe2 _ (by omega)]; exact v2,
            by rw [hframe2 _ (by omega)]; exact v3⟩
        · subst hxe; exact ⟨hr, hg, hb2⟩
      · intro j hj
        rw [hframe2 j (by omega), hframe1 j (by omega)]

/-- Characterisation of the first `m` iterations of the outer (per-row)
loop, started on any buffer of the allocated length: they succeed, keep
the length, store the three shifted components of every pixel of the
first `m` rows at their flat indices, and leave all indices from
`m*width*3` on unchanged. -/
lemma convertImage_aux (img : GoImage) (m : ℕ) :
    ∀ arr : Array ℚ, m ≤ img.height →
      arr.size = 1 * img.height * img.width * 3 →
    ∃ a', (List.range m).foldlM (fun a y => convertRow img y a) arr = some a' ∧
      a'.size = arr.size ∧
      (∀ y x, y < m → x < img.width →
        a'[(y * img.width + x) * 3]? = some (shr8 (img.pixel x y).r) ∧
        a'[(y * img.width + x) * 3 + 1]? = some (shr8 (img.pixel x y).g) ∧
        a'[(y * img.width + x) * 3 + 2]? = some (shr8 (img.pixel x y).b)) ∧
      (∀ j, m * img.width * 3 ≤ j → a'[j]? = arr[j]?) := by
  induction m with
  | zero =>
      intro arr _ _
      exact ⟨arr, by simp, rfl, fun y x hy => absurd hy (Nat.not_lt_zero y),
        fun j _ => rfl⟩
  | succ m ih =>
      intro arr hm hsz
      obtain ⟨a1, hrun1, hsz1, hvals1, hframe1⟩ := ih arr (by omega) hsz
      have hbound : (m * img.width + img.width) * 3 ≤ a1.size := by
        have h1 : (m + 1) * img.width ≤ img.height * img.width :=
          Nat.mul_le_mul_right _ hm
        have h2 : (m * img.width + img.width) * 3 = ((m + 1) * img.width) * 3 := by
          ring
        have h3 : (img.height * img.width) * 3 = 1 * img.height * img.width * 3 := by
          ring
        omega
      obtain ⟨a2, hrun2, hsz2, hvals2, hframe2⟩ :=
        convertRow_aux img m img.width a1 hbound
      have hcr : convertRow img m a1 = some a2 := hrun2
      refine ⟨a2, ?_, by omega, ?_, ?_⟩
      · rw [List.range_succ, List.foldlM_append, hrun1]
        simp [List.foldlM_cons, List.foldlM_nil, hcr]
      · intro y x hy hx
        rcases Nat.lt_succ_iff_lt_or_eq.mp hy with hym | hye
        · obtain ⟨v1, v2, v3⟩ := hvals1 y x hym hx
          have hrow : y * img.width + x + 1 ≤ m * img.width := by
            have h1 : (y + 1) * img.width ≤ m * img.width :=
              Nat.mul_le_mul_right _ (by omega)
            have h2 : y * img.width + x + 1 ≤ (y + 1) * img.width := by
              have h3 : y * img.width + img.width = (y + 1) * img.width := by ring
              omega
            omega
          exact ⟨by rw [hframe2 _ (by omega)]; exact v1,
            by rw [hframe2 _ (by omega)]; exact v2,
            by rw [hframe2 _ (by omega)]; exact v3⟩
        · subst hye; exact hvals2 x hx
      · intro j hj
        have heq : (m * img.width + img.width) * 3 = (m + 1) * img.width * 3 := by
          ring
        have hmono : m * img.width ≤ (m + 1) * img.width :=
          Nat.mul_le_mul_right _ (by omega)
        rw [hframe2 j (by omega), hframe1 j (by omega)]

/-- Full characterisation of the conversion loop of `PreprocessImage`:
on any decoded-and-resized image it succeeds (no index is ever out of
range), produces the buffer of length `1*height*width*3`, and stores the
three shifted components of every pixel `(x, y)` at flat indices
`(y*width+x)*3`, `+1`, `+2` in channel order R, G, B. -/
lemma convertImage_spec (img : GoImage) :
    ∃ a, convertImage img = some a ∧
      a.size = 1 * img.height * img.width * 3 ∧
      ∀ y x, y < img.height → x < img.width →
        a[(y * img.width + x) * 3]? = some (shr8 (img.pixel x y).r) ∧
        a[(y * img.width + x) * 3 + 1]? = some (shr8 (img.pixel x y).g) ∧
        a[(y * img.width + x) * 3 + 2]? = some (shr8 (img.pixel x y).b) := by
  obtain ⟨a, hrun, hsz, hvals, -⟩ :=
    convertImage_aux img img.height
      (Array.mkArray (1 * img.height * img.width * 3) (0 : ℚ))
      le_rfl (Array.size_mkArray _ _)
  exact ⟨a, hrun, by rw [hsz, Array.size_mkArray], hvals⟩

/-- Each element of an updated Go slice is the written value or an element
of the original slice. -/
lemma get?_set_cases (a : Array ℚ) (i : ℕ) (h : i < a.size) (v : ℚ) (j : ℕ) (q : ℚ)
    (hq : (a.set ⟨i, h⟩ v)[j]? = some q) : q = v ∨ a[j]? = some q := by
  by_cases hij : i = j
  · subst hij
    rw [get?_set_self] at hq
    exact Or.inl (Option.some.inj hq).symm
  · exact Or.inr (by rw [get?_set_other _ _ _ _ _ hij] at hq; exact hq)

/-- A successful Go slice assignment preserves any per-element predicate
that the written value satisfies. -/
lemma setChecked_entries (arr a' : Array ℚ) (i : ℕ) (v : ℚ) (P : ℚ → Prop)
    (hP : ∀ (j : ℕ) (q : ℚ), arr[j]? = some q → P q) (hv : P v)
    (hrun : setChecked arr i v = some a') : ∀ (j : ℕ) (q : ℚ), a'[j]? = some q → P q := by
  unfold setChecked at hrun
  split at hrun
  · cases hrun
    intro j q hq
    rcases get?_set_cases _ _ _ _ _ _ hq with h | h
    · exact h ▸ hv
    · exact hP j q h
  · cases hrun

/-- One successful iteration of the pixel loop preserves any per-element
predicate that holds of the three written component values. -/
lemma writePixel_entries (img : GoImage) (y x : ℕ) (arr a' : Array ℚ) (P : ℚ → Prop)
    (hP : ∀ (j : ℕ) (q : ℚ), arr[j]? = some q → P q)
    (hr : P (shr8 (img.pixel x y).r)) (hg : P (shr8 (img.pixel x y).g))
    (hb : P (shr8 (img.pixel x y).b))
    (hrun : writePixel img y x arr = some a') : ∀ (j : ℕ) (q : ℚ), a'[j]? = some q → P q := by
  unfold writePixel at hrun
  cases h1 : setChecked arr ((y * img.width + x) * 3) (shr8 (img.pixel x y).r) with
  | none => rw [h1] at hrun; cases hrun
  | some a1 =>
      rw [h1] at hrun
      simp only [Option.some_bind] at hrun
      have hP1 := setChecked_entries _ _ _ _ P hP hr h1
      cases h2 : setChecked a1 ((y * img.width + x) * 3 + 1) (shr8 (img.pixel x y).g) with
      | none => rw [h2] at hrun; cases hrun
      | some a2 =>
          rw [h2] at hrun
          simp only [Option.some_bind] at hrun
          have hP2 := setChecked_entries _ _ _ _ P hP1 hg h2
          exact setChecked_entries _ _ _ _ P hP2 hb hrun

/-- A monadic fold over `Option` preserves a per-element predicate that
each step preserves. -/
lemma foldlM_entries {β : Type} (P : ℚ → Prop) :
    ∀ (l : List β) (f : Array ℚ → β → Option (Array ℚ)),
      (∀ a b a', b ∈ l → (∀ (j : ℕ) (q : ℚ), a[j]? = some q → P q) → f a b = some a' →
        ∀ (j : ℕ) (q : ℚ), a'[j]? = some q → P q) →
      ∀ a a', (∀ (j : ℕ) (q : ℚ), a[j]? = some q → P q) → l.foldlM f a = some a' →
        ∀ (j : ℕ) (q : ℚ), a'[j]? = some q → P q := by
  intro l
  induction l with
  | nil =>
      intro f _ a a' hPa hrun
      simp only [List.foldlM_nil, pure, Option.some.injEq] at hrun
      exact hrun ▸ hPa
  | cons hd tl ih =>
      intro f hf a a' hPa hrun
      rw [List.foldlM_cons] at hrun
      cases h1 : f a hd with
      | none => rw [h1] at hrun; cases hrun
      | some a1 =>
          rw [h1] at hrun
          simp only [Option.bind_eq_bind, Option.some_bind] at hrun
          exact ih f (fun a b a' hb => hf a b a' (List.mem_cons_of_mem _ hb)) a1 a'
            (hf a hd a1 (List.mem_cons_self _ _) hPa h1) hrun

/-- Every element of the buffer produced by the conversion loop satisfies
any predicate that holds of zero (the Go zero-initialised buffer) and of
all three shifted components of every in-range pixel. -/
lemma convertImage_entries (img : GoImage) (P : ℚ → Prop) (h0 : P 0)
    (hpix : ∀ x y, x < img.width → y < img.height →
      P (shr8 (img.pixel x y).r) ∧ P (shr8 (img.pixel x y).g) ∧
        P (shr8 (img.pixel x y).b))
    (a : Array ℚ) (hrun : convertImage img = some a) :
    ∀ (j : ℕ) (q : ℚ), a[j]? = some q → P q := by
  unfold convertImage at hrun
  refine foldlM_entries P (List.range img.height) _ ?_ _ _ ?_ hrun
  · intro arr y a' hy hParr hrow
    have hylt : y < img.height := List.mem_range.mp hy
    refine foldlM_entries P (List.range img.width) _ ?_ _ _ hParr hrow
    intro arr2 x a2 hx hParr2 hwp
    have hxlt : x < img.width := List.mem_range.mp hx
    obtain ⟨p1, p2, p3⟩ := hpix x y hxlt hylt
    exact writePixel_entries img y x arr2 a2 P hParr2 p1 p2 p3 hwp
  · intro j q hq
    rw [Array.getElem?_mkArray] at hq
    split at hq
    · exact (Option.some.inj hq) ▸ h0
    · cases hq

/-- The shifted value of a 16-bit color component lies in [0, 255]. -/
lemma shr8_mem (v : ℕ) (hv : v ≤ 65535) : 0 ≤ shr8 v ∧ shr8 v ≤ 255 := by
  have hdiv : v >>> 8 = v / 256 := by
    rw [Nat.shiftRight_eq_div_pow]
  have hle : v >>> 8 ≤ 255 := by omega
  unfold shr8
  constructor
  · exact_mod_cast Nat.zero_le _
  · exact_mod_cast hle

/-- A small concrete test image with channel values that differ per pixel
and per channel, used by the witnesses. -/
def testImage : GoImage :=
  { width := 2, height := 2,
    pixel := fun x y => ⟨256 * x + 512, 256 * y + 768, 1024, 65535⟩ }

/-- C10: every write of the pixel-conversion loop is in bounds — for all
y < height, x < width and c < 3 the flat index ((y·width+x)·3+c) is
strictly below the buffer length 1·height·width·3 — and consequently the
conversion step never panics with an out-of-range index: it always
returns a buffer. -/
theorem C10_writes_in_bounds (img : GoImage) :
    (∀ y x c, y < img.height → x < img.width → c < 3 →
      (y * img.width + x) * 3 + c < 1 * img.height * img.width * 3) ∧
    (convertImage img).isSome = true := by
  constructor
  · intro y x c hy hx hc
    have h1 : (y + 1) * img.width ≤ img.height * img.width :=
      Nat.mul_le_mul_right _ (by omega)
    have h2 : y * img.width + img.width = (y + 1) * img.width := by ring
    have h3 : img.height * img.width * 3 = 1 * img.height * img.width * 3 := by
      ring
    omega
  · obtain ⟨a, hrun, -, -⟩ := convertImage_spec img
    rw [hrun]; rfl

/-- Witness for C10 on a concrete image. -/
theorem C10_writes_in_bounds_witness :
    (convertImage testImage).isSome = true ∧
    (1 * testImage.width + 0) * 3 + 2 < 1 * testImage.height * testImage.width * 3 :=
  ⟨(C10_writes_in_bounds testImage).2,
    (C10_writes_in_bounds testImage).1 1 0 2 (by decide) (by decide) (by decide)⟩

/-- C6: for every pixel (y, x) of the resized image and channel c in
{R=0, G=1, B=2}, the conversion loop writes the pixel's 16-bit color
component right-shifted by 8 bits as a float32 value into the flat buffer
at index ((y·width+x)·3+c) — row-major, channel-last order, channels
stored in order R, G, B. -/
theorem C6_channel_layout (img : GoImage) (y x : ℕ)
    (hy : y < img.height) (hx : x < img.width) :
    ∃ a, convertImage img = some a ∧
      a[(y * img.width + x) * 3]? = some (shr8 (img.pixel x y).r) ∧
      a[(y * img.width + x) * 3 + 1]? = some (shr8 (img.pixel x y).g) ∧
      a[(y * img.width + x) * 3 + 2]? = some (shr8 (img.pixel x y).b) := by
  obtain ⟨a, hrun, -, hvals⟩ := convertImage_spec img
  obtain ⟨v1, v2, v3⟩ := hvals y x hy hx
  exact ⟨a, hrun, v1, v2, v3⟩

/-- Witness for C6 at pixel (y=1, x=0) of the concrete test image. -/
theorem C6_channel_layout_witness :
    ∃ a, convertImage testImage = some a ∧
      a[(1 * testImage.width + 0) * 3]? = some (shr8 (testImage.pixel 0 1).r) ∧
      a[(1 * testImage.width + 0) * 3 + 1]? = some (shr8 (testImage.pixel 0 1).g) ∧
      a[(1 * testImage.width + 0) * 3 + 2]? = some (shr8 (testImage.pixel 0 1).b) :=
  C6_channel_layout testImage 1 0 (by decide) (by decide)

/-- C7: `normalize` is deterministic — it is a pure function of the input
bytes (given the fixed decode and resize implementations), so two runs on
identical byte streams produce identical outcomes, in particular
bit-identical tensors (same shape list and same flat buffer). -/
theorem C7_deterministic (decode : List ℕ → Except String GoImage)
    (resize : GoImage → GoImage) (b1 b2 : List ℕ) (h : b1 = b2) :
    preprocessImage decode resize b1 = preprocessImage decode resize b2 := by
  rw [h]

/-- Witness for C7 at a concrete decoder, resizer and byte stream. -/
theorem C7_deterministic_witness :
    preprocessImage decodeWhite512 (fun _ => whiteImage 224 224) [7, 7] =
      preprocessImage decodeWhite512 (fun _ => whiteImage 224 224) [7, 7] :=
  C7_deterministic decodeWhite512 (fun _ => whiteImage 224 224) [7, 7] [7, 7] rfl

/-- C2: for every byte stream that decodes as a valid image of arbitrary
original dimensions, given the resize library's contract (the resized
image is exactly 224×224) and the color contract (16-bit components at
most 65535), `PreprocessImage` succeeds and produces a tensor with
declared shape (1,224,224,3), backing length 1·224·224·3, and every
stored float32 value in the closed interval [0, 255]. -/
theorem C2_shape_and_range (decode : List ℕ → Except String GoImage)
    (resize : GoImage → GoImage) (bytes : List ℕ) (img : GoImage)
    (hdec : decode bytes = .ok img)
    (hh : (resize img).height = 224) (hw : (resize img).width = 224)
    (hpix : ∀ x y, ((resize img).pixel x y).r ≤ 65535 ∧
      ((resize img).pixel x y).g ≤ 65535 ∧ ((resize img).pixel x y).b ≤ 65535) :
    ∃ t, preprocessImage decode resize bytes = .ok t ∧
      t.shape = [1, 224, 224, 3] ∧
      t.data.size = 1 * 224 * 224 * 3 ∧
      ∀ (j : ℕ) (q : ℚ), t.data[j]? = some q → 0 ≤ q ∧ q ≤ 255 := by
  obtain ⟨a, hrun, hsz, -⟩ := convertImage_spec (resize img)
  have hrange : ∀ (j : ℕ) (q : ℚ), a[j]? = some q → 0 ≤ q ∧ q ≤ 255 := by
    refine convertImage_entries (resize img) (fun q => 0 ≤ q ∧ q ≤ 255)
      (by norm_num) ?_ a hrun
    intro x y _ _
    obtain ⟨h1, h2, h3⟩ := hpix x y
    exact ⟨shr8_mem _ h1, shr8_mem _ h2, shr8_mem _ h3⟩
  refine ⟨⟨[1, (resize img).height, (resize img).width, 3], a⟩, ?_, ?_, ?_, hrange⟩
  · simp [preprocessImage, hdec, hrun]
  · simp [hh, hw]
  · rw [hsz, hh, hw]

/-- Witness for C2: a decoder producing the 512×512 all-white image and a
resizer producing the 224×224 all-white image. -/
theorem C2_shape_and_range_witness :
    ∃ t, preprocessImage decodeWhite512 (fun _ => whiteImage 224 224) [3] = .ok t ∧
      t.shape = [1, 224, 224, 3] ∧
      t.data.size = 1 * 224 * 224 * 3 ∧
      ∀ (j : ℕ) (q : ℚ), t.data[j]? = some q → 0 ≤ q ∧ q ≤ 255 :=
  C2_shape_and_range decodeWhite512 (fun _ => whiteImage 224 224) [3]
    (whiteImage 512 512) rfl rfl rfl
    (fun _ _ => ⟨Nat.le.refl, Nat.le.refl, Nat.le.refl⟩)

/-- With a positive width, the conversion loop covers every index of the
produced buffer: the element at any i < size is the shifted R, G or B
component of some in-range pixel. -/
lemma convertImage_cover (img : GoImage) (hw : 0 < img.width) :
    ∃ a, convertImage img = some a ∧
      a.size = 1 * img.height * img.width * 3 ∧
      ∀ i, i < a.size → ∃ x y, x < img.width ∧ y < img.height ∧
        (a[i]? = some (shr8 (img.pixel x y).r) ∨
         a[i]? = some (shr8 (img.pixel x y).g) ∨
         a[i]? = some (shr8 (img.pixel x y).b)) := by
  obtain ⟨a, hrun, hsz, hvals⟩ := convertImage_spec img
  refine ⟨a, hrun, hsz, ?_⟩
  intro i hi
  refine ⟨i / 3 % img.width, i / 3 / img.width, Nat.mod_lt _ hw, ?_, ?_⟩
  · have hp3 : i / 3 < img.height * img.width := by
      rw [Nat.div_lt_iff_lt_mul (by norm_num : (0:ℕ) < 3)]
      have h1 : 1 * img.height * img.width * 3 = img.height * img.width * 3 := by
        ring
      omega
    rw [Nat.div_lt_iff_lt_mul hw]
    exact hp3
  · have hyx : i / 3 = img.width * (i / 3 / img.width) + i / 3 % img.width :=
      (Nat.div_add_mod _ _).symm
    have hic : i = 3 * (i / 3) + i % 3 := (Nat.div_add_mod _ _).symm
    have hcomm : (i / 3 / img.width) * img.width = img.width * (i / 3 / img.width) :=
      Nat.mul_comm _ _
    have hidx : i = ((i / 3 / img.width) * img.width + i / 3 % img.width) * 3
        + i % 3 := by omega
    obtain ⟨v1, v2, v3⟩ := hvals (i / 3 / img.width) (i / 3 % img.width)
      (by rw [Nat.div_lt_iff_lt_mul hw]
          rw [Nat.div_lt_iff_lt_mul (by norm_num : (0:ℕ) < 3)] at *
          have h1 : 1 * img.height * img.width * 3 = img.height * img.width * 3 := by
            ring
          omega)
      (Nat.mod_lt _ hw)
    have hc3 : i % 3 = 0 ∨ i % 3 = 1 ∨ i % 3 = 2 := by omega
    rcases hc3 with h | h | h
    · left
      have hidx0 : (i / 3 / img.width * img.width + i / 3 % img.width) * 3 = i := by
        omega
      rw [hidx0] at v1
      exact v1
    · right; left
      have hidx1 : (i / 3 / img.width * img.width + i / 3 % img.width) * 3 + 1 = i := by
        omega
      rw [hidx1] at v2
      exact v2
    · right; right
      have hidx2 : (i / 3 / img.width * img.width + i / 3 % img.width) * 3 + 2 = i := by
        omega
      rw [hidx2] at v3
      exact v3

/-- C8: for an input that decodes to the 512×512 all-white image, given
the resize library's contract that the Lanczos resample of a constant
image is the constant image (here: 224×224 all-white), `PreprocessImage`
produces a tensor whose every element, in all 3 channels at all 224×224
positions, equals exactly 255.0. -/
theorem C8_all_white (decode : List ℕ → Except String GoImage)
    (resize : GoImage → GoImage) (bytes : List ℕ)
    (hdec : decode bytes = .ok (whiteImage 512 512))
    (hres : resize (whiteImage 512 512) = whiteImage 224 224) :
    ∃ t, preprocessImage decode resize bytes = .ok t ∧
      t.shape = [1, 224, 224, 3] ∧
      t.data.size = 1 * 224 * 224 * 3 ∧
      ∀ i, i < t.data.size → t.data[i]? = some 255 := by
  obtain ⟨a, hrun, hsz, hcover⟩ :=
    convertImage_cover (whiteImage 224 224) (by norm_num [whiteImage])
  have hsz' : a.size = 1 * 224 * 224 * 3 := by
    rw [hsz]; norm_num [whiteImage]
  refine ⟨⟨[1, 224, 224, 3], a⟩, ?_, rfl, hsz', ?_⟩
  · simp only [preprocessImage, hdec, hres, hrun]
    rfl
  · intro i hi
    have hi' : i < a.size := by simpa using hi
    obtain ⟨x, y, -, -, hval⟩ := hcover i hi'
    have hwhite : shr8 (65535 : ℕ) = 255 := by
      unfold shr8
      norm_num [Nat.shiftRight_eq_div_pow]
    show a[i]? = some 255
    rcases hval with h | h | h <;> rw [h] <;> exact congrArg some hwhite

/-- Witness for C8 at the concrete all-white decoder and resizer. -/
theorem C8_all_white_witness :
    ∃ t, preprocessImage decodeWhite512 (fun _ => whiteImage 224 224) [9] = .ok t ∧
      t.shape = [1, 224, 224, 3] ∧
      t.data.size = 1 * 224 * 224 * 3 ∧
      ∀ i, i < t.data.size → t.data[i]? = some 255 :=
  C8_all_white decodeWhite512 (fun _ => whiteImage 224 224) [9] rfl rfl

end MammoScan
